import Mathlib

/-!
Verification of the Divan-e Kabir multi-pass translation pipeline
(`pipeline.py` and the four agent prompt builders).

The Python code manipulates JSON-decoded values (dicts, lists, strings,
numbers, booleans, None).  We embed those values as the inductive type
`Json` below, and each Python operation used by the pipeline
(`d.get`, `d[k]`, `k in d`, `len`, truthiness, iteration, `str()`,
`sep.join(...)`, string `split`/`startswith`) as a Lean function with
Python semantics.  Fallible operations (which raise `TypeError`,
`KeyError`, `AttributeError` in Python) return `Except String _`.
-/

namespace Divan

/-- JSON-decoded Python values.  Numbers are modelled as exact rationals
(`json.loads` produces ints and floats; claims here never depend on
floating-point rounding).  `nonfinite` models the Python `json` extension
tokens `NaN` / `Infinity` / `-Infinity`. -/
inductive Json where
  | null : Json
  | bool (b : Bool) : Json
  | num (q : Rat) : Json
  | str (s : String) : Json
  | arr (elems : List Json) : Json
  | obj (fields : List (String × Json)) : Json
  | nonfinite (s : String) : Json
deriving Inhabited

/-- First-match association-list lookup: Python dicts have unique keys,
and the parser below builds objects with unique keys, so first-match
lookup coincides with Python dict lookup. -/
def lookupKey (k : String) : List (String × Json) → Option Json
  | [] => none
  | (k2, v) :: rest => if k2 = k then some v else lookupKey k rest

/-- Python truthiness of a JSON-decoded value. -/
def pyTruthy : Json → Bool
  | .null => false
  | .bool b => b
  | .num q => q != 0
  | .str s => s ≠ ""
  | .arr l => ¬ l.isEmpty
  | .obj kvs => ¬ kvs.isEmpty
  | .nonfinite _ => true

/-- Python `d.get(k, default)`.  Raises `AttributeError` when `d` is not
a dict. -/
def pyGet (d : Json) (k : String) (dflt : Json) : Except String Json :=
  match d with
  | .obj kvs => .ok ((lookupKey k kvs).getD dflt)
  | _ => .error "AttributeError: object has no attribute get"

/-- Python `d[k]` with a string key.  Raises `KeyError` for a dict
without the key and `TypeError` for non-dict values. -/
def pySubscr (d : Json) (k : String) : Except String Json :=
  match d with
  | .obj kvs =>
    match lookupKey k kvs with
    | some v => .ok v
    | none => .error ("KeyError: " ++ k)
  | _ => .error "TypeError: value is not subscriptable by a string"

/-- Is the first character list a prefix of the second? -/
def isPrefixChars : List Char → List Char → Bool
  | [], _ => true
  | _ :: _, [] => false
  | a :: as, b :: bs => a = b && isPrefixChars as bs

/-- Is the first character list a contiguous infix of the second? -/
def isInfixChars (needle : List Char) : List Char → Bool
  | [] => needle.isEmpty
  | c :: rest => isPrefixChars needle (c :: rest) || isInfixChars needle rest

/-- Python `k in d` for a string `k`: dict key membership, list element
membership, substring test on strings; `TypeError` otherwise. -/
def pyIn (k : String) (d : Json) : Except String Bool :=
  match d with
  | .obj kvs => .ok (lookupKey k kvs).isSome
  | .arr l => .ok (l.any fun j => match j with | .str s => s = k | _ => false)
  | .str s => .ok (isInfixChars k.data s.data)
  | _ => .error "TypeError: argument is not iterable"

/-- Python iteration `for x in d`: list elements, dict keys, string
characters; `TypeError` otherwise. -/
def pyIter : Json → Except String (List Json)
  | .arr l => .ok l
  | .obj kvs => .ok (kvs.map fun kv => Json.str kv.1)
  | .str s => .ok (s.data.map fun c => Json.str (String.singleton c))
  | _ => .error "TypeError: value is not iterable"

/-- Python `len`. -/
def pyLen : Json → Except String Nat
  | .arr l => .ok l.length
  | .obj kvs => .ok kvs.length
  | .str s => .ok s.length
  | _ => .error "TypeError: object has no len"

/-- Python `x == s` for a string literal `s`: cross-type equality is
`False` in Python. -/
def pyEqStr (j : Json) (s : String) : Bool :=
  match j with
  | .str t => t = s
  | _ => false

/-- Python `x.upper()`: `AttributeError` on non-strings. -/
def pyUpper (j : Json) : Except String String :=
  match j with
  | .str s => .ok s.toUpper
  | _ => .error "AttributeError: object has no attribute upper"

/-- Digit character for `n % 10`. -/
def natDigitChar (n : Nat) : Char :=
  match n % 10 with
  | 0 => '0' | 1 => '1' | 2 => '2' | 3 => '3' | 4 => '4'
  | 5 => '5' | 6 => '6' | 7 => '7' | 8 => '8' | _ => '9'

/-- Decimal digits of a natural number (fuel-driven; `fuel = n + 1`
always suffices). -/
def natToCharsGo : Nat → Nat → List Char
  | 0, n => [natDigitChar n]
  | fuel + 1, n =>
    if n < 10 then [natDigitChar n]
    else natToCharsGo fuel (n / 10) ++ [natDigitChar (n % 10)]

/-- Decimal string of a natural number. -/
def natToString (n : Nat) : String := String.mk (natToCharsGo (n + 1) n)

/-- Decimal string of an integer. -/
def intToString (i : Int) : String :=
  (if i < 0 then "-" else "") ++ natToString i.natAbs

/-- Rendering of a JSON number, as Python `str`/`repr` would show it
(integers exactly; non-integral rationals approximated by six decimal
places, which no claim depends on). -/
def numToString (q : Rat) : String :=
  if q.den = 1 then intToString q.num
  else
    (if q < 0 then "-" else "") ++ natToString (q.num.natAbs / q.den) ++ "." ++
      natToString ((q.num.natAbs * 1000000 / q.den) % 1000000)

/-- Python `sep.join(list)` on plain Lean strings (total; Python `str.join`
over a list of strings). -/
def pyJoinList (sep : String) : List String → String
  | [] => ""
  | [x] => x
  | x :: xs => x ++ sep ++ pyJoinList sep xs

/-- A single quote character, used when rendering Python `repr`. -/
def squote : String := String.singleton (Char.ofNat 39)

mutual

/-- Python `repr` of a JSON-decoded value (string escaping inside `repr`
is not modelled; no claim depends on it). -/
def pyRepr : Json → String
  | .null => "None"
  | .bool true => "True"
  | .bool false => "False"
  | .num q => numToString q
  | .nonfinite s => s
  | .str s => squote ++ s ++ squote
  | .arr l => "[" ++ pyReprList l ++ "]"
  | .obj kvs => "\x7b" ++ pyReprObj kvs ++ "\x7d"

/-- Comma-separated `repr` of list elements. -/
def pyReprList : List Json → String
  | [] => ""
  | [j] => pyRepr j
  | j :: js => pyRepr j ++ ", " ++ pyReprList js

/-- Comma-separated `repr` of dict items. -/
def pyReprObj : List (String × Json) → String
  | [] => ""
  | [(k, v)] => squote ++ k ++ squote ++ ": " ++ pyRepr v
  | (k, v) :: rest => squote ++ k ++ squote ++ ": " ++ pyRepr v ++ ", " ++ pyReprObj rest

end

/-- Python `str()` of a JSON-decoded value (`str` of a string is itself;
containers render via `repr`). -/
def pyStr : Json → String
  | .str s => s
  | j => pyRepr j

/-- Python `sep.join(x)` on a JSON value: iterates `x`; every element must be a
string, otherwise `TypeError`. -/
def pyJoinJson (sep : String) (x : Json) : Except String String := do
  let items ← pyIter x
  let strs ← items.mapM fun j =>
    match j with
    | Json.str s => Except.ok s
    | _ => Except.error "TypeError: sequence item is not a string"
  .ok (pyJoinList sep strs)

/-! ### `json.loads`

A recursive-descent parser for the JSON grammar accepted by Python's
`json.loads` (including the `NaN`/`Infinity` extension tokens).  Numeric
values are kept as exact rationals.  Recursion is driven by a fuel
parameter; `jsonLoads` supplies fuel proportional to the input length,
which always suffices since every recursive step consumes input. -/

/-- JSON whitespace. -/
def isWsChar (c : Char) : Bool := c = ' ' || c = '\t' || c = '\n' || c = '\r'

/-- Drop leading JSON whitespace. -/
def skipWs (cs : List Char) : List Char := cs.dropWhile isWsChar

/-- Value of a hexadecimal digit. -/
def hexVal? (c : Char) : Option Nat :=
  let n := c.toNat
  if 48 ≤ n ∧ n ≤ 57 then some (n - 48)
  else if 97 ≤ n ∧ n ≤ 102 then some (n - 87)
  else if 65 ≤ n ∧ n ≤ 70 then some (n - 55)
  else none

/-- Single-character JSON string escapes. -/
def escChar? : Char → Option Char
  | '"' => some '"'
  | '\\' => some '\\'
  | '/' => some '/'
  | 'b' => some (Char.ofNat 8)
  | 'f' => some (Char.ofNat 12)
  | 'n' => some '\n'
  | 'r' => some '\r'
  | 't' => some '\t'
  | _ => none

/-- Parse the body of a JSON string after the opening quote; returns the
decoded characters and the remaining input.  Surrogate pairs in `\u`
escapes are combined; a raw control character or bad escape fails, as in
Python's strict `json.loads`. -/
def parseStrAux : Nat → List Char → Option (List Char × List Char)
  | 0, _ => none
  | _ + 1, [] => none
  | fuel + 1, c :: rest =>
    if c = '"' then some ([], rest)
    else if c = '\\' then
      match rest with
      | 'u' :: h1 :: h2 :: h3 :: h4 :: rest2 => do
        let d1 ← hexVal? h1
        let d2 ← hexVal? h2
        let d3 ← hexVal? h3
        let d4 ← hexVal? h4
        let code := ((d1 * 16 + d2) * 16 + d3) * 16 + d4
        if 0xD800 ≤ code ∧ code < 0xDC00 then
          match rest2 with
          | '\\' :: 'u' :: g1 :: g2 :: g3 :: g4 :: rest3 => do
            let e1 ← hexVal? g1
            let e2 ← hexVal? g2
            let e3 ← hexVal? g3
            let e4 ← hexVal? g4
            let lo := ((e1 * 16 + e2) * 16 + e3) * 16 + e4
            if 0xDC00 ≤ lo ∧ lo < 0xE000 then do
              let (tail, rem) ← parseStrAux fuel rest3
              some (Char.ofNat (0x10000 + (code - 0xD800) * 0x400 + (lo - 0xDC00)) :: tail, rem)
            else do
              let (tail, rem) ← parseStrAux fuel rest2
              some (Char.ofNat code :: tail, rem)
          | _ => do
            let (tail, rem) ← parseStrAux fuel rest2
            some (Char.ofNat code :: tail, rem)
        else do
          let (tail, rem) ← parseStrAux fuel rest2
          some (Char.ofNat code :: tail, rem)
      | e :: rest2 =>
        match escChar? e with
        | some ec => do
          let (tail, rem) ← parseStrAux fuel rest2
          some (ec :: tail, rem)
        | none => none
      | [] => none
    else if c.toNat < 32 then none
    else do
      let (tail, rem) ← parseStrAux fuel rest
      some (c :: tail, rem)

/-- Numeric value of a digit list. -/
def digitsToNat (l : List Char) : Nat :=
  l.foldl (fun a c => a * 10 + (c.toNat - 48)) 0

/-- Split a leading run of decimal digits. -/
def spanDigits (cs : List Char) : List Char × List Char :=
  (cs.takeWhile Char.isDigit, cs.dropWhile Char.isDigit)

/-- Parse an optional fraction part (`.digits`). -/
def parseFrac : List Char → Option (List Char × List Char)
  | '.' :: r =>
    let (ds, r2) := spanDigits r
    if ds.isEmpty then none else some (ds, r2)
  | cs => some ([], cs)

/-- Parse an optional exponent part (`e`/`E`, sign, digits). -/
def parseExp : List Char → Option (Int × List Char)
  | [] => some (0, [])
  | c :: r =>
    if c = 'e' ∨ c = 'E' then
      let (sgn, r1) : Int × List Char :=
        match r with
        | '+' :: r2 => (1, r2)
        | '-' :: r2 => (-1, r2)
        | _ => (1, r)
      let (ds, r2) := spanDigits r1
      if ds.isEmpty then none else some (sgn * (digitsToNat ds : Int), r2)
    else some (0, c :: r)

/-- Parse a JSON number per the `json.loads` grammar (no leading zeros,
fraction and exponent digits required when the marker is present). -/
def parseNum (cs : List Char) : Option (Json × List Char) := do
  let (neg, cs1) : Bool × List Char :=
    match cs with
    | '-' :: r => (true, r)
    | _ => (false, cs)
  let (intDs, cs2) := spanDigits cs1
  if intDs.isEmpty then none
  else if 1 < intDs.length ∧ intDs.head? = some '0' then none
  else do
    let (fracDs, cs3) ← parseFrac cs2
    let (e, cs4) ← parseExp cs3
    let mantNat : Nat := digitsToNat intDs * 10 ^ fracDs.length + digitsToNat fracDs
    let mant : Int := if neg then -(mantNat : Int) else (mantNat : Int)
    let base : Rat := mkRat mant (10 ^ fracDs.length)
    let q : Rat := if 0 ≤ e then base * (10 : Rat) ^ e.toNat else base * mkRat 1 (10 ^ (-e).toNat)
    some (Json.num q, cs4)

/-- Opening brace character. -/
def openBrace : Char := Char.ofNat 123

/-- Closing brace character. -/
def closeBrace : Char := Char.ofNat 125

/-- Dict assignment `d[k] = v`: overwrites in place when the key exists
(keeping its position, as CPython dicts do for duplicate JSON keys),
otherwise appends. -/
def objInsert (kvs : List (String × Json)) (k : String) (v : Json) : List (String × Json) :=
  match kvs with
  | [] => [(k, v)]
  | (k2, v2) :: rest => if k2 = k then (k2, v) :: rest else (k2, v2) :: objInsert rest k v

mutual

/-- Parse one JSON value, returning it with the remaining input. -/
def parseVal : Nat → List Char → Option (Json × List Char)
  | 0, _ => none
  | fuel + 1, cs =>
    match skipWs cs with
    | 'n' :: 'u' :: 'l' :: 'l' :: rest => some (.null, rest)
    | 't' :: 'r' :: 'u' :: 'e' :: rest => some (.bool true, rest)
    | 'f' :: 'a' :: 'l' :: 's' :: 'e' :: rest => some (.bool false, rest)
    | 'N' :: 'a' :: 'N' :: rest => some (.nonfinite "nan", rest)
    | 'I' :: 'n' :: 'f' :: 'i' :: 'n' :: 'i' :: 't' :: 'y' :: rest => some (.nonfinite "inf", rest)
    | '-' :: 'I' :: 'n' :: 'f' :: 'i' :: 'n' :: 'i' :: 't' :: 'y' :: rest =>
      some (.nonfinite "-inf", rest)
    | '"' :: rest => do
      let (chars, rem) ← parseStrAux fuel rest
      some (.str (String.mk chars), rem)
    | '[' :: rest =>
      (match skipWs rest with
       | ']' :: rem => some (.arr [], rem)
       | cs2 => do
         let (elems, rem) ← parseArrLoop fuel cs2
         some (.arr elems, rem))
    | cs1 =>
      match cs1 with
      | c :: rest =>
        if c = openBrace then
          match skipWs rest with
          | [] => none
          | c2 :: rem =>
            if c2 = closeBrace then some (.obj [], rem)
            else do
              let (pairs, rem2) ← parseObjLoop fuel (c2 :: rem)
              some (.obj (pairs.foldl (fun acc kv => objInsert acc kv.1 kv.2) []), rem2)
        else parseNum cs1
      | [] => none

/-- Parse the comma-separated elements of a non-empty JSON array, up to
and including the closing bracket. -/
def parseArrLoop : Nat → List Char → Option (List Json × List Char)
  | 0, _ => none
  | fuel + 1, cs => do
    let (v, r1) ← parseVal fuel cs
    match skipWs r1 with
    | ',' :: r2 => do
      let (vs, r3) ← parseArrLoop fuel r2
      some (v :: vs, r3)
    | ']' :: r2 => some ([v], r2)
    | _ => none

/-- Parse the comma-separated members of a non-empty JSON object, up to
and including the closing brace. -/
def parseObjLoop : Nat → List Char → Option (List (String × Json) × List Char)
  | 0, _ => none
  | fuel + 1, cs =>
    match skipWs cs with
    | '"' :: rest => do
      let (kchars, r1) ← parseStrAux fuel rest
      match skipWs r1 with
      | ':' :: r2 => do
        let (v, r3) ← parseVal fuel r2
        match skipWs r3 with
        | ',' :: r4 => do
          let (pairs, r5) ← parseObjLoop fuel r4
          some ((String.mk kchars, v) :: pairs, r5)
        | c :: r4 =>
          if c = closeBrace then some ([(String.mk kchars, v)], r4) else none
        | [] => none
      | _ => none
    | _ => none

end

/-- Python `json.loads`: parse a whole string as one JSON value,
rejecting trailing non-whitespace.  `none` models a raised
`json.JSONDecodeError`. -/
def jsonLoads (s : String) : Option Json :=
  match parseVal (4 * s.length + 16) s.data with
  | some (j, rest) => if (skipWs rest).isEmpty then some j else none
  | none => none

/-! ### Stage Invoker (`TranslationPipeline._call_agent`)

The outbound model call is the sole I/O; we model its outcome as an
`AgentResponse`: either the response text, or a transport-level failure
(any exception other than `json.JSONDecodeError`, which `_call_agent`
re-raises). -/

/-- Python `text.split(sep)` for a single-character separator: split on
every occurrence, keeping empty segments. -/
def splitChAux (sep : Char) : List Char → List (List Char)
  | [] => [[]]
  | c :: cs =>
    let r := splitChAux sep cs
    if c = sep then [] :: r
    else
      match r with
      | [] => [[c]]
      | l :: ls => (c :: l) :: ls

/-- Python `text.split(c)` on strings. -/
def pySplitChar (s : String) (sep : Char) : List String :=
  (splitChAux sep s.data).map String.mk

/-- Python `s.startswith(pre)`. -/
def pyStartsWith (s pre : String) : Bool := isPrefixChars pre.data s.data

/-- The three-backtick code-fence marker. -/
def fence : String := "```"

/-- The fence-extraction loop of `_call_agent`: collect the lines strictly
between the first line starting with three backticks and the next such
line (`continue` on the opening fence, `break` on the closing one). -/
def extractFenceLines : Bool → List String → List String
  | _, [] => []
  | inBlock, l :: ls =>
    if pyStartsWith l fence then
      if inBlock then [] else extractFenceLines true ls
    else
      if inBlock then l :: extractFenceLines true ls
      else extractFenceLines inBlock ls

/-- The text-normalisation step of `_call_agent`: when the response
starts with a fence, keep only the fenced block's lines. -/
def preprocessResponse (text : String) : String :=
  if pyStartsWith text fence then
    pyJoinList "\n" (extractFenceLines false (pySplitChar text '\n'))
  else text

/-- Placeholder for `str(e)` of the `json.JSONDecodeError`; the exact
message text is CPython-internal and no claim depends on it. -/
def parseErrMsg : String := "Expecting value"

/-- The degraded record `_call_agent` returns when JSON parsing fails:
the (fence-stripped) text plus an error marker. -/
def degradedRecord (t : String) : Json :=
  Json.obj [("raw_response", Json.str t), ("parse_error", Json.str parseErrMsg)]

/-- Outcome of the one outbound model call inside `_call_agent`. -/
inductive AgentResponse where
  | text (s : String) : AgentResponse
  | transport (err : String) : AgentResponse

/-- The parse step of `_call_agent` on the fence-stripped text:
`json.loads`, or the degraded record on `JSONDecodeError`. -/
def parseOrDegrade (t2 : String) : Except String Json :=
  match jsonLoads t2 with
  | some j => .ok j
  | none => .ok (degradedRecord t2)

/-- Embedding of `TranslationPipeline._call_agent`: given the outcome of the model
call: strip a leading/trailing fence, parse as JSON; on parse failure
return the degraded record instead of raising; re-raise transport
failures. -/
def callAgent (resp : AgentResponse) : Except String Json :=
  match resp with
  | .transport e => .error e
  | .text t => parseOrDegrade (preprocessResponse t)

/-! ### Prompt builders (`agents/analyzer.py`, `agents/translator.py`,
`agents/stylist.py`, `agents/qa.py`)

Each builder renders the per-poem user prompt.  The rendered text is
never inspected by the model-response oracle, but building it can raise
(`KeyError` on a verse lacking a hemistich, `TypeError` iterating a
non-list, ...), so the builders are embedded with their full
data-access structure and `Except` effects. -/

/-- Verse lines of the analyzer/translator prompt:
`Verse i:` / two indented hemistichs, `i` counted from 1. -/
def analyzerVerseLines : Nat → List Json → Except String (List String)
  | _, [] => .ok []
  | i, v :: vs => do
    let h1 ← pySubscr v "hemistich1"
    let h2 ← pySubscr v "hemistich2"
    let rest ← analyzerVerseLines (i + 1) vs
    .ok (("Verse " ++ natToString i ++ ":") :: ("  " ++ pyStr h1) :: ("  " ++ pyStr h2) :: rest)

/-- Embedding of `get_analyzer_prompt`. -/
def getAnalyzerPrompt (ghazal : Json) : Except String String := do
  let vsJ ← pySubscr ghazal "verses"
  let vs ← pyIter vsJ
  let versesText ← analyzerVerseLines 1 vs
  let persianText := pyJoinList "\n" versesText
  let num ← pyGet ghazal "number" (Json.str "Unknown")
  let meter ← pyGet ghazal "meter" (Json.str "Unknown")
  let rhyme ← pyGet ghazal "rhyme" (Json.str "Unknown")
  .ok ("Analyze the following ghazal from Rumi" ++ squote ++ "s Divan-e Kabir.\n\n**Ghazal Number**: "
    ++ pyStr num ++ "\n**Meter**: " ++ pyStr meter ++ "\n**Rhyme**: " ++ pyStr rhyme
    ++ "\n\n**Persian Text**:\n" ++ persianText
    ++ "\n\nProvide a detailed analysis as JSON. Remember:\n- Identify ALL Quranic allusions and hadith references\n- Flag ambiguities that should be PRESERVED, not resolved\n- Note wordplay even if it cannot be translated\n- Be specific about Sufi terminology")

/-- Translator-prompt allusion lines `- phrase: reference`
(plain subscripts: a missing key raises). -/
def quranicRefLines : List Json → Except String (List String)
  | [] => .ok []
  | a :: rest => do
    let ph ← pySubscr a "phrase"
    let ref ← pySubscr a "reference"
    let tail ← quranicRefLines rest
    .ok (("- " ++ pyStr ph ++ ": " ++ pyStr ref) :: tail)

/-- Translator-prompt Sufi-term lines `- term: meaning_in_context`. -/
def sufiTermLines : List Json → Except String (List String)
  | [] => .ok []
  | t :: rest => do
    let tm ← pySubscr t "term"
    let mic ← pySubscr t "meaning_in_context"
    let tail ← sufiTermLines rest
    .ok (("- " ++ pyStr tm ++ ": " ++ pyStr mic) :: tail)

/-- Translator-prompt ambiguity lines `- phrase: reading, reading`. -/
def ambigLines : List Json → Except String (List String)
  | [] => .ok []
  | a :: rest => do
    let ph ← pySubscr a "phrase"
    let rd ← pySubscr a "possible_readings"
    let rds ← pyJoinJson ", " rd
    let tail ← ambigLines rest
    .ok (("- " ++ pyStr ph ++ ": " ++ rds) :: tail)

/-- Translator-prompt wordplay lines `- word: meaning, meaning`. -/
def wordplayLines : List Json → Except String (List String)
  | [] => .ok []
  | w :: rest => do
    let wd ← pySubscr w "word"
    let ms ← pySubscr w "meanings"
    let mss ← pyJoinJson ", " ms
    let tail ← wordplayLines rest
    .ok (("- " ++ pyStr wd ++ ": " ++ mss) :: tail)

/-- Embedding of `get_translator_prompt`. -/
def getTranslatorPrompt (ghazal analysis : Json) : Except String String := do
  let vsJ ← pySubscr ghazal "verses"
  let vs ← pyIter vsJ
  let versesText ← analyzerVerseLines 1 vs
  let persianText := pyJoinList "\n" versesText
  let b1 ← pyGet analysis "quranic_allusions" Json.null
  let block1 ←
    if pyTruthy b1 then do
      let items ← pyIter (← pySubscr analysis "quranic_allusions")
      let refs ← quranicRefLines items
      pure ["**Quranic Allusions**:\n" ++ pyJoinList "\n" refs]
    else pure []
  let b2 ← pyGet analysis "sufi_terminology" Json.null
  let block2 ←
    if pyTruthy b2 then do
      let items ← pyIter (← pySubscr analysis "sufi_terminology")
      let terms ← sufiTermLines items
      pure ["**Sufi Terms**:\n" ++ pyJoinList "\n" terms]
    else pure []
  let b3 ← pyGet analysis "ambiguities" Json.null
  let block3 ←
    if pyTruthy b3 then do
      let items ← pyIter (← pySubscr analysis "ambiguities")
      let ambs ← ambigLines items
      pure ["**Ambiguities to Preserve**:\n" ++ pyJoinList "\n" ambs]
    else pure []
  let b4 ← pyGet analysis "wordplay" Json.null
  let block4 ←
    if pyTruthy b4 then do
      let items ← pyIter (← pySubscr analysis "wordplay")
      let plays ← wordplayLines items
      pure ["**Wordplay**:\n" ++ pyJoinList "\n" plays]
    else pure []
  let summary := block1 ++ block2 ++ block3 ++ block4
  let analysisText := if summary.isEmpty then "No special notes." else pyJoinList "\n\n" summary
  let num ← pyGet ghazal "number" (Json.str "Unknown")
  let meter ← pyGet ghazal "meter" (Json.str "Unknown")
  .ok ("Translate the following ghazal from Rumi" ++ squote ++ "s Divan-e Kabir.\n\n**Ghazal Number**: "
    ++ pyStr num ++ "\n**Meter**: " ++ pyStr meter
    ++ "\n\n**Persian Text**:\n" ++ persianText
    ++ "\n\n**Analysis Context**:\n" ++ analysisText
    ++ "\n\nProduce an accurate, literal translation. Use the glossary consistently. Mark uncertainties with [?]. Preserve Islamic context (Hajj, Kaaba, prayer postures). Output as JSON.")

/-- Stylist-prompt literal-translation lines
(`Verse n:` and indented hemistichs, all by subscript). -/
def stylistLiteralLines : List Json → Except String (List String)
  | [] => .ok []
  | v :: vs => do
    let vn ← pySubscr v "verse_number"
    let h1 ← pySubscr v "hemistich1"
    let h2 ← pySubscr v "hemistich2"
    let rest ← stylistLiteralLines vs
    .ok (("Verse " ++ pyStr vn ++ ":") :: ("  " ++ pyStr h1) :: ("  " ++ pyStr h2) :: rest)

/-- Stylist-prompt Persian reference lines `Verse i: h1 / h2`. -/
def stylistPersianLines : Nat → List Json → Except String (List String)
  | _, [] => .ok []
  | i, v :: vs => do
    let h1 ← pySubscr v "hemistich1"
    let h2 ← pySubscr v "hemistich2"
    let rest ← stylistPersianLines (i + 1) vs
    .ok (("Verse " ++ natToString i ++ ": " ++ pyStr h1 ++ " / " ++ pyStr h2) :: rest)

/-- Subscript the same key out of every list element
(the list comprehension `[a[k] for a in items]`). -/
def collectField (k : String) : List Json → Except String (List Json)
  | [] => .ok []
  | a :: rest => do
    let v ← pySubscr a k
    let tail ← collectField k rest
    .ok (v :: tail)

/-- Embedding of `get_stylist_prompt`. -/
def getStylistPrompt (ghazal analysis literalTrans : Json) : Except String String := do
  let lvJ ← pyGet literalTrans "verses" (Json.arr [])
  let lvs ← pyIter lvJ
  let literalLines ← stylistLiteralLines lvs
  let literalText := pyJoinList "\n" literalLines
  let vsJ ← pySubscr ghazal "verses"
  let vs ← pyIter vsJ
  let persianLines ← stylistPersianLines 1 vs
  let persianText := pyJoinList "\n" persianLines
  let a1 ← pyGet analysis "ambiguities" Json.null
  let points1 ←
    if pyTruthy a1 then do
      let items ← pyIter (← pySubscr analysis "ambiguities")
      let phrases ← collectField "phrase" items
      let joined ← pyJoinJson ", " (Json.arr phrases)
      pure ["**Ambiguities to preserve**: " ++ joined]
    else pure []
  let a2 ← pyGet analysis "key_images" Json.null
  let points2 ←
    if pyTruthy a2 then do
      let imgs ← pySubscr analysis "key_images"
      let joined ← pyJoinJson ", " imgs
      pure ["**Key images**: " ++ joined]
    else pure []
  let keyPoints := points1 ++ points2
  let context := if keyPoints.isEmpty then "" else pyJoinList "\n" keyPoints
  let num ← pyGet ghazal "number" (Json.str "Unknown")
  .ok ("Refine this literal translation into poetry that sounds like Rumi.\n\n**Ghazal Number**: "
    ++ pyStr num
    ++ "\n\n**Original Persian** (for reference):\n" ++ persianText
    ++ "\n\n**Literal Translation**:\n" ++ literalText
    ++ "\n\n" ++ (if context ≠ "" then "**Context**:\n" ++ context else "")
    ++ "\n\nTransform this into Rumi" ++ squote ++ "s voice:\n- Direct address and urgency\n- Embodied, passionate language\n- Contemporary (not Victorian) English\n- Preserve ALL Islamic context (Hajj, Kaaba, prayer, etc.)\n- Don" ++ squote ++ "t soften or over-explain\n\nOutput as JSON with the refined translation.")

/-- QA-prompt Persian lines `i. h1 / h2`. -/
def qaPersianLines : Nat → List Json → Except String (List String)
  | _, [] => .ok []
  | i, v :: vs => do
    let h1 ← pySubscr v "hemistich1"
    let h2 ← pySubscr v "hemistich2"
    let rest ← qaPersianLines (i + 1) vs
    .ok ((natToString i ++ ". " ++ pyStr h1 ++ " / " ++ pyStr h2) :: rest)

/-- QA-prompt literal-translation lines `n. h1 / h2`. -/
def qaLiteralLines : List Json → Except String (List String)
  | [] => .ok []
  | v :: vs => do
    let vn ← pySubscr v "verse_number"
    let h1 ← pySubscr v "hemistich1"
    let h2 ← pySubscr v "hemistich2"
    let rest ← qaLiteralLines vs
    .ok ((pyStr vn ++ ". " ++ pyStr h1 ++ " / " ++ pyStr h2) :: rest)

/-- QA-prompt refined-translation lines `n. line1 / line2`. -/
def qaRefinedLines : List Json → Except String (List String)
  | [] => .ok []
  | v :: vs => do
    let vn ← pySubscr v "verse_number"
    let l1 ← pySubscr v "line1"
    let l2 ← pySubscr v "line2"
    let rest ← qaRefinedLines vs
    .ok ((pyStr vn ++ ". " ++ pyStr l1 ++ " / " ++ pyStr l2) :: rest)

/-- Embedding of `get_qa_prompt`. -/
def getQaPrompt (ghazal analysis literalTrans refinedTrans : Json) : Except String String := do
  let vsJ ← pySubscr ghazal "verses"
  let vs ← pyIter vsJ
  let persianLines ← qaPersianLines 1 vs
  let persianText := pyJoinList "\n" persianLines
  let lvJ ← pyGet literalTrans "verses" (Json.arr [])
  let lvs ← pyIter lvJ
  let literalLines ← qaLiteralLines lvs
  let literalText := pyJoinList "\n" literalLines
  let ftJ ← pyGet refinedTrans "full_text" (Json.str "")
  let refinedText ←
    if pyTruthy ftJ then pure (pyStr ftJ)
    else do
      let rvJ ← pyGet refinedTrans "verses" (Json.arr [])
      let rvs ← pyIter rvJ
      let refinedLines ← qaRefinedLines rvs
      pure (pyJoinList "\n" refinedLines)
  let p1 ← pyGet analysis "quranic_allusions" Json.null
  let points1 ←
    if pyTruthy p1 then do
      let n ← pyLen (← pySubscr analysis "quranic_allusions")
      pure ["Quranic allusions: " ++ natToString n ++ " identified"]
    else pure []
  let p2 ← pyGet analysis "sufi_terminology" Json.null
  let points2 ←
    if pyTruthy p2 then do
      let items ← pyIter (← pySubscr analysis "sufi_terminology")
      let terms ← collectField "term" items
      let joined ← pyJoinJson ", " (Json.arr terms)
      pure ["Sufi terms: " ++ joined]
    else pure []
  let p3 ← pyGet analysis "ambiguities" Json.null
  let points3 ←
    if pyTruthy p3 then do
      let n ← pyLen (← pySubscr analysis "ambiguities")
      pure ["Ambiguities: " ++ natToString n ++ " to preserve"]
    else pure []
  let points := points1 ++ points2 ++ points3
  let analysisSummary := if points.isEmpty then "Standard ghazal" else pyJoinList "\n" points
  let num ← pyGet ghazal "number" (Json.str "Unknown")
  .ok ("Review this translation for quality assurance.\n\n**Ghazal Number**: " ++ pyStr num
    ++ "\n\n**Original Persian**:\n" ++ persianText
    ++ "\n\n**Literal Translation**:\n" ++ literalText
    ++ "\n\n**Refined Translation** (to review):\n" ++ refinedText
    ++ "\n\n**Analysis Summary**:\n" ++ analysisSummary
    ++ "\n\nCheck for:\n1. Semantic fidelity (does English match Persian meaning?)\n2. No hallucinations (nothing added that wasn" ++ squote ++ "t there?)\n3. Islamic context preserved (Hajj, Kaaba, prayer intact?)\n4. Terminology consistent with glossary?\n5. Tone sounds like Rumi (urgent, embodied, not academic)?\n6. Ambiguities preserved (not over-explained)?\n\nOutput your QA assessment as JSON.")

/-! ### Pipeline Orchestrator (`TranslationPipeline.translate_ghazal`) -/

/-- The line-pair collection loop of `_extract_final_translation`:
`v.get("line1", "")` and `v.get("line2", "")` for each verse. -/
def extractLinePairs : List Json → Except String (List Json)
  | [] => .ok []
  | v :: vs => do
    let l1 ← pyGet v "line1" (Json.str "")
    let l2 ← pyGet v "line2" (Json.str "")
    let rest ← extractLinePairs vs
    .ok (l1 :: l2 :: rest)

/-- Embedding of `TranslationPipeline._extract_final_translation`: prefer the nested
`refined_translation.full_text` when the key is present, else join the
line pairs with newlines, else fall back to `str(refined)`. -/
def extractFinalTranslation (refined : Json) : Except String Json := do
  let b1 ← pyIn "refined_translation" refined
  if b1 then do
    let rt ← pySubscr refined "refined_translation"
    let b2 ← pyIn "full_text" rt
    if b2 then pySubscr rt "full_text"
    else do
      let b3 ← pyIn "verses" rt
      if b3 then do
        let vsJ ← pySubscr rt "verses"
        let vs ← pyIter vsJ
        let lines ← extractLinePairs vs
        let joined ← pyJoinJson "\n" (Json.arr lines)
        .ok (Json.str joined)
      else .ok (Json.str (pyStr refined))
  else .ok (Json.str (pyStr refined))

/-- Scholarly-notes lines for Quranic allusions
(`- reference: meaning-or-rumi_usage`). -/
def notesQuranicLines : List Json → Except String (List String)
  | [] => .ok []
  | a :: rest => do
    let ref ← pyGet a "reference" (Json.str "?")
    let ru ← pyGet a "rumi_usage" (Json.str "")
    let mean ← pyGet a "meaning" ru
    let tail ← notesQuranicLines rest
    .ok (("- " ++ pyStr ref ++ ": " ++ pyStr mean) :: tail)

/-- Scholarly-notes lines for Sufi terminology. -/
def notesSufiLines : List Json → Except String (List String)
  | [] => .ok []
  | t :: rest => do
    let tm ← pyGet t "term" (Json.str "")
    let pers ← pyGet t "persian" (Json.str "")
    let mic ← pyGet t "meaning_in_context" (Json.str "")
    let tail ← notesSufiLines rest
    .ok (("- *" ++ pyStr tm ++ "* (" ++ pyStr pers ++ "): " ++ pyStr mic) :: tail)

/-- Scholarly-notes lines for deliberate ambiguities. -/
def notesAmbigLines : List Json → Except String (List String)
  | [] => .ok []
  | a :: rest => do
    let rd ← pyGet a "possible_readings" (Json.arr [])
    let readings ← pyJoinJson ", " rd
    let ph ← pyGet a "phrase" (Json.str "")
    let tail ← notesAmbigLines rest
    .ok (("- \"" ++ pyStr ph ++ "\": " ++ readings) :: tail)

/-- Scholarly-notes lines for wordplay. -/
def notesWordplayLines : List Json → Except String (List String)
  | [] => .ok []
  | w :: rest => do
    let ms ← pyGet w "meanings" (Json.arr [])
    let meanings ← pyJoinJson ", " ms
    let wd ← pyGet w "word" (Json.str "")
    let tail ← notesWordplayLines rest
    .ok (("- *" ++ pyStr wd ++ "*: " ++ meanings) :: tail)

/-- Scholarly-notes lines for translator notes. -/
def notesTransLines : List Json → Except String (List String)
  | [] => .ok []
  | n :: rest => do
    let v ← pyGet n "verse" (Json.str "?")
    let note ← pyGet n "note" (Json.str "")
    let tail ← notesTransLines rest
    .ok (("- Verse " ++ pyStr v ++ ": " ++ pyStr note) :: tail)

/-- Embedding of `TranslationPipeline._compile_scholarly_notes`: fixed category order,
each non-empty (truthy) category rendered as a heading plus bullet
lines; empty categories omitted; empty string when nothing is present. -/
def compileScholarlyNotes (analysis literal : Json) : Except String String := do
  let q1 ← pyGet analysis "quranic_allusions" Json.null
  let part1 ←
    if pyTruthy q1 then do
      let items ← pyIter (← pySubscr analysis "quranic_allusions")
      let ls ← notesQuranicLines items
      pure ("**Quranic Allusions:**" :: ls)
    else pure []
  let q2 ← pyGet analysis "sufi_terminology" Json.null
  let part2 ←
    if pyTruthy q2 then do
      let items ← pyIter (← pySubscr analysis "sufi_terminology")
      let ls ← notesSufiLines items
      pure ("\n**Sufi Terminology:**" :: ls)
    else pure []
  let q3 ← pyGet analysis "ambiguities" Json.null
  let part3 ←
    if pyTruthy q3 then do
      let items ← pyIter (← pySubscr analysis "ambiguities")
      let ls ← notesAmbigLines items
      pure ("\n**Deliberate Ambiguities:**" :: ls)
    else pure []
  let q4 ← pyGet analysis "wordplay" Json.null
  let part4 ←
    if pyTruthy q4 then do
      let items ← pyIter (← pySubscr analysis "wordplay")
      let ls ← notesWordplayLines items
      pure ("\n**Wordplay (Lost in Translation):**" :: ls)
    else pure []
  let q5 ← pyGet literal "translation_notes" Json.null
  let part5 ←
    if pyTruthy q5 then do
      let items ← pyIter (← pySubscr literal "translation_notes")
      let ls ← notesTransLines items
      pure ("\n**Translation Notes:**" :: ls)
    else pure []
  let notes := part1 ++ part2 ++ part3 ++ part4 ++ part5
  .ok (if notes.isEmpty then "" else pyJoinList "\n" notes)

/-- The consolidated result record assembled per poem. -/
structure TranslationResult where
  ghazal_id : String
  ghazal_number : Json
  persian_text : Json
  analysis : Json
  literal_translation : Json
  refined_translation : Json
  qa_result : Json
  final_translation : Json
  scholarly_notes : String
  confidence : Json
  needs_review : Json
  metadata : Json
deriving Inhabited

/-- The raising data accesses of `TranslationPipeline._print_summary`
(the printing itself is I/O, but `confidence.upper()` and iterating
`overall_issues` can raise, aborting the poem). -/
def printSummaryChecks (r : TranslationResult) : Except String Unit := do
  let _ ← pyUpper r.confidence
  let issues ← pyGet r.qa_result "overall_issues" Json.null
  if pyTruthy issues then do
    let iss ← pySubscr r.qa_result "overall_issues"
    let _ ← pyIter iss
    pure ()
  else pure ()

/-- Outcomes of the four model calls made for one poem. -/
structure StageResponses where
  analyzer : AgentResponse
  translator : AgentResponse
  stylist : AgentResponse
  qa : AgentResponse

/-- Embedding of `TranslationPipeline.translate_ghazal`: the four stages in strict
sequence, threading each output into the next stage's prompt builder,
then the final-text, notes, confidence and review-flag derivations. -/
def translateGhazal (model now : String) (ghazal : Json) (rs : StageResponses) :
    Except String TranslationResult := do
  let num ← pyGet ghazal "number" (Json.str "?")
  let _ ← getAnalyzerPrompt ghazal
  let analysis ← callAgent rs.analyzer
  let _ ← getTranslatorPrompt ghazal analysis
  let literal ← callAgent rs.translator
  let literalForStylist ← pyGet literal "literal_translation" literal
  let _ ← getStylistPrompt ghazal analysis literalForStylist
  let refined ← callAgent rs.stylist
  let refinedForQa ← pyGet refined "refined_translation" refined
  let _ ← getQaPrompt ghazal analysis literalForStylist refinedForQa
  let qa ← callAgent rs.qa
  let finalText ← extractFinalTranslation refined
  let notes ← compileScholarlyNotes analysis literal
  let confidence ← pyGet qa "confidence" (Json.str "medium")
  let needsReview ← pyGet qa "flags_for_human_review" (Json.bool (pyEqStr confidence "low"))
  let persian ← pySubscr ghazal "verses"
  let result : TranslationResult :=
    { ghazal_id := "F-" ++ pyStr num
      ghazal_number := num
      persian_text := persian
      analysis := analysis
      literal_translation := literal
      refined_translation := refined
      qa_result := qa
      final_translation := finalText
      scholarly_notes := notes
      confidence := confidence
      needs_review := needsReview
      metadata := Json.obj [("translated_at", Json.str now), ("model", Json.str model),
        ("pipeline_version", Json.str "1.1")] }
  let _ ← printSummaryChecks result
  .ok result

/-! ### Corpus Runner (`translate_corpus`) -/

/-- The per-poem loop of `translate_corpus`: collect each completed
result; on failure, record a per-poem error line and continue.  (A raise
inside the `except` handler itself — `ghazal.get` on a non-dict record —
propagates and aborts the run, as in Python.) -/
def corpusLoop (model now : String) (oracle : Json → StageResponses) :
    List Json → Except String (List TranslationResult × List String)
  | [] => .ok ([], [])
  | g :: gs =>
    match translateGhazal model now g (oracle g) with
    | .ok r => do
      let (rest, log) ← corpusLoop model now oracle gs
      .ok (r :: rest, log)
    | .error e =>
      match pyGet g "number" (Json.str "?") with
      | .error e2 => .error e2
      | .ok num => do
        let (rest, log) ← corpusLoop model now oracle gs
        .ok (rest, ("Error translating ghazal " ++ pyStr num ++ ": " ++ e) :: log)

/-- Python list slice `lst[:n]` (negative `n` drops from the end). -/
def pySliceTo (gs : List Json) (n : Int) : List Json :=
  if 0 ≤ n then gs.take n.toNat else gs.take ((gs.length : Int) + n).toNat

/-- The limit application of `translate_corpus`:
`data["ghazals"][:limit] if limit else data["ghazals"]` — `None` and
`0` are both falsy, so both mean "no limit". -/
def applyLimit (gs : List Json) (limit : Option Int) : List Json :=
  match limit with
  | none => gs
  | some n => if n = 0 then gs else pySliceTo gs n

/-- Embedding of `translate_corpus` (modulo file I/O): apply the limit, then run the
per-poem loop, returning the collected results and the per-poem error
log. -/
def translateCorpus (model now : String) (gs : List Json) (oracle : Json → StageResponses)
    (limit : Option Int) : Except String (List TranslationResult × List String) :=
  corpusLoop model now oracle (applyLimit gs limit)

/-! ### Serialization of structured records

`_call_agent` itself only parses; the fence-transparency property of the
spec quantifies over "the serialized text of a structured object", which
we model with a standard compact JSON serializer (newlines inside
strings are escaped, so serialized text is a single line). -/

/-- JSON string escaping of one character (enough escapes to keep the
output newline-free; exotic control characters do not occur in claims). -/
def escJsonChar (c : Char) : String :=
  if c = '"' then "\\\""
  else if c = '\\' then "\\\\"
  else if c = '\n' then "\\n"
  else if c = '\t' then "\\t"
  else if c = '\r' then "\\r"
  else String.singleton c

/-- JSON string escaping of a character list. -/
def escJsonChars : List Char → String
  | [] => ""
  | c :: cs => escJsonChar c ++ escJsonChars cs

mutual

/-- Compact JSON serialization of a structured object (as `json.dumps`
with default separators would produce, minus spaces). -/
def serialize : Json → String
  | .null => "null"
  | .bool true => "true"
  | .bool false => "false"
  | .num q => numToString q
  | .nonfinite s => if s = "-inf" then "-Infinity" else if s = "inf" then "Infinity" else "NaN"
  | .str s => "\"" ++ escJsonChars s.data ++ "\""
  | .arr l => "[" ++ serializeArr l ++ "]"
  | .obj kvs => "\x7b" ++ serializeObj kvs ++ "\x7d"

/-- Comma-separated serialization of array elements. -/
def serializeArr : List Json → String
  | [] => ""
  | [j] => serialize j
  | j :: js => serialize j ++ "," ++ serializeArr js

/-- Comma-separated serialization of object members. -/
def serializeObj : List (String × Json) → String
  | [] => ""
  | [(k, v)] => "\"" ++ escJsonChars k.data ++ "\":" ++ serialize v
  | (k, v) :: rest =>
    "\"" ++ escJsonChars k.data ++ "\":" ++ serialize v ++ "," ++ serializeObj rest

end

/-- A response consisting of a fenced code block holding `s`: an
opening fence line, the payload, and a closing fence line. -/
def wrapFence (s : String) : String := fence ++ "\n" ++ s ++ "\n" ++ fence

/-! ### Character-level facts about serialized text -/

/-- The backtick character. -/
def btChar : Char := Char.ofNat 96

/-- The decimal digit characters. -/
def digitChars : List Char := ['0', '1', '2', '3', '4', '5', '6', '7', '8', '9']

theorem fence_data : fence.data = [btChar, btChar, btChar] := by decide

theorem natDigitChar_mem (n : Nat) : natDigitChar n ∈ digitChars := by
  unfold natDigitChar
  split <;> decide

theorem mem_natToCharsGo : ∀ fuel n c, c ∈ natToCharsGo fuel n → c ∈ digitChars := by
  intro fuel
  induction fuel with
  | zero =>
    intro n c h
    unfold natToCharsGo at h
    simp only [List.mem_singleton] at h
    exact h ▸ natDigitChar_mem n
  | succ f ih =>
    intro n c h
    unfold natToCharsGo at h
    split at h
    · simp only [List.mem_singleton] at h
      exact h ▸ natDigitChar_mem n
    · rcases List.mem_append.mp h with h1 | h1
      · exact ih _ _ h1
      · simp only [List.mem_singleton] at h1
        exact h1 ▸ natDigitChar_mem _

theorem natToCharsGo_ne_nil (fuel n : Nat) : natToCharsGo fuel n ≠ [] := by
  cases fuel with
  | zero => unfold natToCharsGo; simp
  | succ f =>
    unfold natToCharsGo
    split
    · simp
    · simp

theorem natToCharsGo_head (fuel n : Nat) :
    ∃ c cs, natToCharsGo fuel n = c :: cs ∧ c ∈ digitChars := by
  match h : natToCharsGo fuel n with
  | [] => exact absurd h (natToCharsGo_ne_nil fuel n)
  | c :: cs => exact ⟨c, cs, rfl, mem_natToCharsGo fuel n c (h ▸ List.mem_cons_self c cs)⟩

/-- Newline-freeness is preserved by string append. -/
theorem nl_append (s t : String) (hs : '\n' ∉ s.data) (ht : '\n' ∉ t.data) :
    '\n' ∉ (s ++ t).data := by
  rw [String.data_append]
  intro h
  rcases List.mem_append.mp h with h1 | h1
  exacts [hs h1, ht h1]

theorem nl_natToString (n : Nat) : '\n' ∉ (natToString n).data := by
  intro h
  have hd := mem_natToCharsGo (n + 1) n _ h
  have : ∀ c ∈ digitChars, c ≠ '\n' := by decide
  exact this _ hd rfl

theorem nl_intToString (i : Int) : '\n' ∉ (intToString i).data := by
  unfold intToString
  split
  · exact nl_append _ _ (by decide) (nl_natToString _)
  · exact nl_append _ _ (by decide) (nl_natToString _)

theorem nl_numToString (q : Rat) : '\n' ∉ (numToString q).data := by
  unfold numToString
  split
  · exact nl_intToString _
  · refine nl_append _ _ (nl_append _ _ (nl_append _ _ ?_ (nl_natToString _)) (by decide))
      (nl_natToString _)
    split
    · decide
    · decide

theorem nl_escJsonChar (c : Char) : '\n' ∉ (escJsonChar c).data := by
  unfold escJsonChar
  split
  · decide
  · split
    · decide
    · split
      · decide
      · split
        · decide
        · split
          · decide
          · rename_i h1 h2 h3 h4 h5
            intro h
            have h6 : '\n' ∈ [c] := h
            simp only [List.mem_singleton] at h6
            exact h3 h6.symm

theorem nl_escJsonChars : ∀ l : List Char, '\n' ∉ (escJsonChars l).data
  | [] => by decide
  | c :: cs => nl_append _ _ (nl_escJsonChar c) (nl_escJsonChars cs)

mutual

theorem nl_serialize : ∀ j : Json, '\n' ∉ (serialize j).data
  | .null => by decide
  | .bool true => by simp only [serialize]; decide
  | .bool false => by simp only [serialize]; decide
  | .num q => by simp only [serialize]; exact nl_numToString q
  | .nonfinite s => by
    simp only [serialize]
    split
    · decide
    · split <;> decide
  | .str s => by
    simp only [serialize]
    exact nl_append _ _ (nl_append _ _ (by decide) (nl_escJsonChars s.data)) (by decide)
  | .arr l => by
    simp only [serialize]
    exact nl_append _ _ (nl_append _ _ (by decide) (nl_serializeArr l)) (by decide)
  | .obj kvs => by
    simp only [serialize]
    exact nl_append _ _ (nl_append _ _ (by decide) (nl_serializeObj kvs)) (by decide)

theorem nl_serializeArr : ∀ l : List Json, '\n' ∉ (serializeArr l).data
  | [] => by simp only [serializeArr]; decide
  | [j] => by simp only [serializeArr]; exact nl_serialize j
  | j :: j2 :: js => by
    simp only [serializeArr]
    exact nl_append _ _ (nl_append _ _ (nl_serialize j) (by decide)) (nl_serializeArr (j2 :: js))

theorem nl_serializeObj : ∀ kvs : List (String × Json), '\n' ∉ (serializeObj kvs).data
  | [] => by simp only [serializeObj]; decide
  | [(k, v)] => by
    simp only [serializeObj]
    exact nl_append _ _ (nl_append _ _ (nl_append _ _ (by decide) (nl_escJsonChars k.data))
      (by decide)) (nl_serialize v)
  | (k, v) :: kv2 :: rest => by
    simp only [serializeObj]
    exact nl_append _ _ (nl_append _ _ (nl_append _ _ (nl_append _ _ (nl_append _ _ (by decide)
      (nl_escJsonChars k.data)) (by decide)) (nl_serialize v)) (by decide))
      (nl_serializeObj (kv2 :: rest))

end

theorem digit_ne_bt : ∀ c ∈ digitChars, c ≠ btChar := by decide

theorem isPrefixChars_cons_false (a : Char) (as : List Char) (c : Char) (cs : List Char)
    (h : a ≠ c) : isPrefixChars (a :: as) (c :: cs) = false := by
  simp [isPrefixChars, h]

theorem startsFence_false (s : String) (c : Char) (cs : List Char) (hdata : s.data = c :: cs)
    (hc : c ≠ btChar) : pyStartsWith s fence = false := by
  unfold pyStartsWith
  rw [fence_data, hdata]
  exact isPrefixChars_cons_false _ _ _ _ (Ne.symm hc)

theorem data_append_cons (s t : String) (c : Char) (cs : List Char) (h : s.data = c :: cs) :
    (s ++ t).data = c :: (cs ++ t.data) := by
  rw [String.data_append, h]
  rfl

theorem serialize_not_fenced : ∀ j : Json, pyStartsWith (serialize j) fence = false
  | .null => by decide
  | .bool true => by simp only [serialize]; decide
  | .bool false => by simp only [serialize]; decide
  | .nonfinite s => by
    simp only [serialize]
    split
    · decide
    · split <;> decide
  | .str s => by
    simp only [serialize]
    exact startsFence_false _ '"' _
      (data_append_cons _ _ '"' _ (data_append_cons _ _ '"' [] rfl)) (by decide)
  | .arr l => by
    simp only [serialize]
    exact startsFence_false _ '[' _
      (data_append_cons _ _ '[' _ (data_append_cons _ _ '[' [] rfl)) (by decide)
  | .obj kvs => by
    simp only [serialize]
    exact startsFence_false _ openBrace _
      (data_append_cons _ _ openBrace _ (data_append_cons _ _ openBrace [] (by decide)))
      (by decide)
  | .num q => by
    simp only [serialize]
    unfold numToString
    split
    · unfold intToString
      split
      · exact startsFence_false _ '-' _ (data_append_cons _ _ '-' [] rfl) (by decide)
      · obtain ⟨c, cs, hd, hmem⟩ := natToCharsGo_head (Int.natAbs (Rat.num q) + 1)
          (Int.natAbs (Rat.num q))
        refine startsFence_false _ c cs ?_ (digit_ne_bt c hmem)
        rw [String.data_append]
        exact hd
    · split
      · exact startsFence_false _ '-' _
          (data_append_cons _ _ '-' _ (data_append_cons _ _ '-' _
            (data_append_cons _ _ '-' [] rfl))) (by decide)
      · obtain ⟨c, cs, hd, hmem⟩ := natToCharsGo_head (Int.natAbs (Rat.num q) / Rat.den q + 1)
          (Int.natAbs (Rat.num q) / Rat.den q)
        have h1 : ("" ++ natToString (Int.natAbs (Rat.num q) / Rat.den q)).data = c :: cs := by
          rw [String.data_append]
          exact hd
        have h2 := data_append_cons _ "." c _ h1
        have h3 := data_append_cons _
          (natToString (Int.natAbs (Rat.num q) * 1000000 / Rat.den q % 1000000)) c _ h2
        exact startsFence_false _ c _ h3 (digit_ne_bt c hmem)

theorem isPrefixChars_append (p : List Char) : ∀ l₁ l₂ : List Char,
    isPrefixChars p l₁ = true → isPrefixChars p (l₁ ++ l₂) = true := by
  induction p with
  | nil => intro l₁ l₂ _; rfl
  | cons a as ih =>
    intro l₁ l₂ h
    cases l₁ with
    | nil => exact absurd h (by simp [isPrefixChars])
    | cons b bs =>
      simp only [isPrefixChars, Bool.and_eq_true, decide_eq_true_eq] at h
      simp only [List.cons_append, isPrefixChars, Bool.and_eq_true, decide_eq_true_eq]
      exact ⟨h.1, ih bs l₂ h.2⟩

theorem splitChAux_ne_nil (sep : Char) : ∀ l : List Char, splitChAux sep l ≠ []
  | [] => by simp [splitChAux]
  | c :: cs => by
    simp only [splitChAux]
    split
    · simp
    · split
      · simp
      · simp

theorem splitChAux_of_not_mem (sep : Char) : ∀ l : List Char, sep ∉ l → splitChAux sep l = [l]
  | [], _ => rfl
  | c :: cs, h => by
    have hc : ¬ (c = sep) := fun hh => h (hh ▸ List.mem_cons_self c cs)
    have hrec := splitChAux_of_not_mem sep cs (fun hm => h (List.mem_cons_of_mem c hm))
    simp only [splitChAux, hrec, if_neg hc]

theorem splitChAux_append (sep : Char) : ∀ l r : List Char, sep ∉ l →
    splitChAux sep (l ++ sep :: r) = l :: splitChAux sep r
  | [], r, _ => by simp [splitChAux]
  | c :: cs, r, h => by
    have hc : ¬ (c = sep) := fun hh => h (hh ▸ List.mem_cons_self c cs)
    have hrec := splitChAux_append sep cs r (fun hm => h (List.mem_cons_of_mem c hm))
    simp only [List.cons_append, splitChAux, List.append_eq, hrec, if_neg hc]

theorem strMk (s : String) : String.mk s.data = s := rfl

theorem wrap_starts_fence (s : String) : pyStartsWith (wrapFence s) fence = true := by
  unfold pyStartsWith wrapFence
  have h : (fence ++ "\n" ++ s ++ "\n" ++ fence).data =
      (fence ++ "\n").data ++ (s ++ "\n" ++ fence).data := by
    simp [String.data_append, List.append_assoc]
  rw [h]
  exact isPrefixChars_append _ _ _ (by decide)

theorem wrap_data (s : String) :
    (wrapFence s).data = fence.data ++ '\n' :: (s.data ++ '\n' :: fence.data) := by
  unfold wrapFence
  simp [String.data_append, List.append_assoc]

theorem preprocess_wrap (s : String) (hnl : '\n' ∉ s.data)
    (hs : pyStartsWith s fence = false) : preprocessResponse (wrapFence s) = s := by
  unfold preprocessResponse
  rw [if_pos (wrap_starts_fence s)]
  unfold pySplitChar
  rw [wrap_data s]
  rw [splitChAux_append '\n' fence.data _ (by decide)]
  rw [splitChAux_append '\n' s.data _ hnl]
  rw [splitChAux_of_not_mem '\n' fence.data (by decide)]
  simp only [List.map_cons, List.map_nil, strMk]
  have hf : pyStartsWith fence fence = true := by decide
  have hres : extractFenceLines false [fence, s, fence] = [s] := by
    simp [extractFenceLines, hs, hf]
  rw [hres]
  rfl

theorem preprocess_unwrapped (s : String) (hs : pyStartsWith s fence = false) :
    preprocessResponse s = s := by
  unfold preprocessResponse
  simp [hs]

/-- C5: Fence-stripping transparency (round trip): for every structured
object `j`, the Stage Invoker's parse of a response consisting of `j`'s
serialized text wrapped in a leading and trailing fenced code block
(three-backtick lines) yields the same record as its parse of the
unwrapped serialized text of `j`. -/
theorem c5_fence_stripping_roundtrip (j : Json) :
    callAgent (.text (wrapFence (serialize j))) = callAgent (.text (serialize j)) := by
  simp only [callAgent]
  rw [preprocess_wrap _ (nl_serialize j) (serialize_not_fenced j),
    preprocess_unwrapped _ (serialize_not_fenced j)]

/-! ### Pipeline inversion and degraded-run lemmas -/

/-- Inversion of a completed `translate_ghazal` run: each stored stage
record is exactly the stage invoker's output, and the derived fields come
from the recorded QA record, refined record and analysis/literal pair. -/
theorem translateGhazal_ok_inv (model now : String) (g : Json) (rs : StageResponses)
    (res : TranslationResult) (h : translateGhazal model now g rs = .ok res) :
    callAgent rs.analyzer = .ok res.analysis ∧
    callAgent rs.translator = .ok res.literal_translation ∧
    callAgent rs.stylist = .ok res.refined_translation ∧
    callAgent rs.qa = .ok res.qa_result ∧
    pyGet res.qa_result "confidence" (Json.str "medium") = .ok res.confidence ∧
    pyGet res.qa_result "flags_for_human_review" (Json.bool (pyEqStr res.confidence "low")) =
      .ok res.needs_review ∧
    extractFinalTranslation res.refined_translation = .ok res.final_translation ∧
    compileScholarlyNotes res.analysis res.literal_translation = .ok res.scholarly_notes ∧
    pySubscr g "verses" = .ok res.persian_text := by
  unfold translateGhazal at h
  simp only [bind, Except.bind] at h
  repeat' split at h
  all_goals try exact Except.noConfusion h
  injection h with h2
  subst h2
  refine ⟨?_, ?_, ?_, ?_, ?_, ?_, ?_, ?_, ?_⟩ <;> assumption

/-- On a parse failure, `_call_agent` returns the degraded record for the
fence-stripped text. -/
theorem callAgent_degraded (t : String) (h : jsonLoads (preprocessResponse t) = none) :
    callAgent (.text t) = .ok (degradedRecord (preprocessResponse t)) := by
  simp [callAgent, parseOrDegrade, h]

/-- A well-formed verse record: a dict with both hemistich fields. -/
def VerseWF (v : Json) : Prop :=
  ∃ fields h1 h2, v = Json.obj fields ∧
    lookupKey "hemistich1" fields = some h1 ∧ lookupKey "hemistich2" fields = some h2

theorem analyzerVerseLines_ok (i : Nat) (vs : List Json) (h : ∀ v ∈ vs, VerseWF v) :
    ∃ ls, analyzerVerseLines i vs = .ok ls := by
  induction vs generalizing i with
  | nil => exact ⟨[], rfl⟩
  | cons v vs ih =>
    obtain ⟨fields, h1, h2, rfl, hh1, hh2⟩ := h v (List.mem_cons_self v vs)
    obtain ⟨ls, hls⟩ := ih (i + 1) (fun u hu => h u (List.mem_cons_of_mem _ hu))
    exact ⟨_, by simp [analyzerVerseLines, pySubscr, hh1, hh2, hls, bind, Except.bind]; rfl⟩

theorem stylistPersianLines_ok (i : Nat) (vs : List Json) (h : ∀ v ∈ vs, VerseWF v) :
    ∃ ls, stylistPersianLines i vs = .ok ls := by
  induction vs generalizing i with
  | nil => exact ⟨[], rfl⟩
  | cons v vs ih =>
    obtain ⟨fields, h1, h2, rfl, hh1, hh2⟩ := h v (List.mem_cons_self v vs)
    obtain ⟨ls, hls⟩ := ih (i + 1) (fun u hu => h u (List.mem_cons_of_mem _ hu))
    exact ⟨_, by simp [stylistPersianLines, pySubscr, hh1, hh2, hls, bind, Except.bind]; rfl⟩

theorem qaPersianLines_ok (i : Nat) (vs : List Json) (h : ∀ v ∈ vs, VerseWF v) :
    ∃ ls, qaPersianLines i vs = .ok ls := by
  induction vs generalizing i with
  | nil => exact ⟨[], rfl⟩
  | cons v vs ih =>
    obtain ⟨fields, h1, h2, rfl, hh1, hh2⟩ := h v (List.mem_cons_self v vs)
    obtain ⟨ls, hls⟩ := ih (i + 1) (fun u hu => h u (List.mem_cons_of_mem _ hu))
    exact ⟨_, by simp [qaPersianLines, pySubscr, hh1, hh2, hls, bind, Except.bind]; rfl⟩

theorem getAnalyzerPrompt_ok (gfields : List (String × Json)) (vs : List Json)
    (hv : lookupKey "verses" gfields = some (Json.arr vs)) (hwf : ∀ v ∈ vs, VerseWF v) :
    ∃ p, getAnalyzerPrompt (Json.obj gfields) = .ok p := by
  obtain ⟨ls, hls⟩ := analyzerVerseLines_ok 1 vs hwf
  exact ⟨_, by simp [getAnalyzerPrompt, pySubscr, hv, pyIter, hls, pyGet, bind, Except.bind,
    pure, Except.pure]; rfl⟩

theorem getTranslatorPrompt_degraded_ok (gfields : List (String × Json)) (vs : List Json)
    (t : String) (hv : lookupKey "verses" gfields = some (Json.arr vs))
    (hwf : ∀ v ∈ vs, VerseWF v) :
    ∃ p, getTranslatorPrompt (Json.obj gfields) (degradedRecord t) = .ok p := by
  obtain ⟨ls, hls⟩ := analyzerVerseLines_ok 1 vs hwf
  exact ⟨_, by simp [getTranslatorPrompt, pySubscr, hv, pyIter, hls, pyGet, degradedRecord,
    lookupKey, pyTruthy, bind, Except.bind, pure, Except.pure, pyJoinList]; rfl⟩

theorem getStylistPrompt_degraded_ok (gfields : List (String × Json)) (vs : List Json)
    (ta tb : String) (hv : lookupKey "verses" gfields = some (Json.arr vs))
    (hwf : ∀ v ∈ vs, VerseWF v) :
    ∃ p, getStylistPrompt (Json.obj gfields) (degradedRecord ta) (degradedRecord tb) = .ok p := by
  obtain ⟨ls, hls⟩ := stylistPersianLines_ok 1 vs hwf
  exact ⟨_, by simp [getStylistPrompt, pySubscr, hv, pyIter, hls, pyGet, degradedRecord,
    lookupKey, pyTruthy, stylistLiteralLines, bind, Except.bind, pure, Except.pure,
    pyJoinList]; rfl⟩

theorem getQaPrompt_degraded_ok (gfields : List (String × Json)) (vs : List Json)
    (ta tb tc : String) (hv : lookupKey "verses" gfields = some (Json.arr vs))
    (hwf : ∀ v ∈ vs, VerseWF v) :
    ∃ p, getQaPrompt (Json.obj gfields) (degradedRecord ta) (degradedRecord tb)
      (degradedRecord tc) = .ok p := by
  obtain ⟨ls, hls⟩ := qaPersianLines_ok 1 vs hwf
  exact ⟨_, by simp [getQaPrompt, pySubscr, hv, pyIter, hls, pyGet, degradedRecord,
    lookupKey, pyTruthy, qaLiteralLines, qaRefinedLines, bind, Except.bind, pure, Except.pure,
    pyJoinList]; rfl⟩

/-- A full pipeline run in which all four stage responses fail to parse:
every stage record degrades, and the orchestrator still assembles a
complete `TranslationResult` (the degraded records are its stage fields,
the final text falls back to `str(refined)`, the notes are empty, the
confidence defaults to medium and the review flag to false). -/
theorem translateGhazal_degraded (model now : String) (gfields : List (String × Json))
    (vs : List Json) (t1 t2 t3 t4 : String)
    (hv : lookupKey "verses" gfields = some (Json.arr vs))
    (hwf : ∀ v ∈ vs, VerseWF v)
    (h1 : jsonLoads (preprocessResponse t1) = none)
    (h2 : jsonLoads (preprocessResponse t2) = none)
    (h3 : jsonLoads (preprocessResponse t3) = none)
    (h4 : jsonLoads (preprocessResponse t4) = none) :
    translateGhazal model now (Json.obj gfields) ⟨.text t1, .text t2, .text t3, .text t4⟩ =
      .ok { ghazal_id := "F-" ++ pyStr ((lookupKey "number" gfields).getD (Json.str "?"))
            ghazal_number := (lookupKey "number" gfields).getD (Json.str "?")
            persian_text := Json.arr vs
            analysis := degradedRecord (preprocessResponse t1)
            literal_translation := degradedRecord (preprocessResponse t2)
            refined_translation := degradedRecord (preprocessResponse t3)
            qa_result := degradedRecord (preprocessResponse t4)
            final_translation := Json.str (pyStr (degradedRecord (preprocessResponse t3)))
            scholarly_notes := ""
            confidence := Json.str "medium"
            needs_review := Json.bool false
            metadata := Json.obj [("translated_at", Json.str now), ("model", Json.str model),
              ("pipeline_version", Json.str "1.1")] } := by
  obtain ⟨p1, hp1⟩ := getAnalyzerPrompt_ok gfields vs hv hwf
  obtain ⟨p2, hp2⟩ := getTranslatorPrompt_degraded_ok gfields vs (preprocessResponse t1) hv hwf
  obtain ⟨p3, hp3⟩ := getStylistPrompt_degraded_ok gfields vs (preprocessResponse t1)
    (preprocessResponse t2) hv hwf
  obtain ⟨p4, hp4⟩ := getQaPrompt_degraded_ok gfields vs (preprocessResponse t1)
    (preprocessResponse t2) (preprocessResponse t3) hv hwf
  have hc1 := callAgent_degraded t1 h1
  have hc2 := callAgent_degraded t2 h2
  have hc3 := callAgent_degraded t3 h3
  have hc4 := callAgent_degraded t4 h4
  have hnum : pyGet (Json.obj gfields) "number" (Json.str "?") =
      .ok ((lookupKey "number" gfields).getD (Json.str "?")) := rfl
  have hlit : pyGet (degradedRecord (preprocessResponse t2)) "literal_translation"
      (degradedRecord (preprocessResponse t2)) = .ok (degradedRecord (preprocessResponse t2)) :=
    rfl
  have href : pyGet (degradedRecord (preprocessResponse t3)) "refined_translation"
      (degradedRecord (preprocessResponse t3)) = .ok (degradedRecord (preprocessResponse t3)) :=
    rfl
  have hext : extractFinalTranslation (degradedRecord (preprocessResponse t3)) =
      .ok (Json.str (pyStr (degradedRecord (preprocessResponse t3)))) := rfl
  have hnotes : compileScholarlyNotes (degradedRecord (preprocessResponse t1))
      (degradedRecord (preprocessResponse t2)) = .ok "" := rfl
  have hconf : pyGet (degradedRecord (preprocessResponse t4)) "confidence" (Json.str "medium") =
      .ok (Json.str "medium") := rfl
  have hrev : pyGet (degradedRecord (preprocessResponse t4)) "flags_for_human_review"
      (Json.bool (pyEqStr (Json.str "medium") "low")) = .ok (Json.bool false) := rfl
  have hper : pySubscr (Json.obj gfields) "verses" = .ok (Json.arr vs) := by
    simp [pySubscr, hv]
  simp only [translateGhazal, bind, Except.bind, hnum, hp1, hc1, hp2, hc2, hlit, hp3, hc3, href,
    hp4, hc4, hext, hnotes, hconf, hrev, hper]
  rfl

/-! ### Corpus-level lemmas and concrete fixtures -/

/-- The error line printed by `translate_corpus` for a failed poem
(for dict-shaped poem records). -/
def corpusErrLine (g : Json) (e : String) : String :=
  "Error translating ghazal " ++
    pyStr (match g with
           | Json.obj kvs => (lookupKey "number" kvs).getD (Json.str "?")
           | _ => Json.str "?") ++ ": " ++ e

/-- The results the corpus loop should collect: one per completed poem,
in order. -/
def corpusSuccesses (model now : String) (oracle : Json → StageResponses) (gs : List Json) :
    List TranslationResult :=
  gs.filterMap fun g => (translateGhazal model now g (oracle g)).toOption

/-- The failure lines the corpus loop should record: one per failed
poem, in order. -/
def corpusFailures (model now : String) (oracle : Json → StageResponses) (gs : List Json) :
    List String :=
  gs.filterMap fun g =>
    match translateGhazal model now g (oracle g) with
    | .error e => some (corpusErrLine g e)
    | .ok _ => none

theorem corpusLoop_spec (model now : String) (oracle : Json → StageResponses) :
    ∀ gs : List Json, (∀ g ∈ gs, ∃ kvs, g = Json.obj kvs) →
      corpusLoop model now oracle gs =
        .ok (corpusSuccesses model now oracle gs, corpusFailures model now oracle gs) := by
  intro gs
  induction gs with
  | nil => intro _; rfl
  | cons g gs ih =>
    intro h
    have hrec := ih (fun u hu => h u (List.mem_cons_of_mem _ hu))
    obtain ⟨kvs, rfl⟩ := h _ (List.mem_cons_self _ _)
    unfold corpusLoop
    cases htg : translateGhazal model now (Json.obj kvs) (oracle (Json.obj kvs)) with
    | ok r =>
      simp [hrec, corpusSuccesses, corpusFailures, htg, bind, Except.bind, Except.toOption]
    | error e =>
      have hget : pyGet (Json.obj kvs) "number" (Json.str "?") =
          .ok ((lookupKey "number" kvs).getD (Json.str "?")) := rfl
      simp [hrec, corpusSuccesses, corpusFailures, htg, hget, corpusErrLine, bind, Except.bind,
        Except.toOption]

/-- A well-formed sample verse record. -/
def sampleVerse : Json := Json.obj [("hemistich1", Json.str "X"), ("hemistich2", Json.str "Y")]

/-- Fields of a well-formed one-verse sample poem. -/
def sampleFields : List (String × Json) :=
  [("number", Json.num 1), ("verses", Json.arr [sampleVerse])]

/-- A second sample poem (the one whose stage call fails in the corpus
scenario). -/
def corpusGhazal2 : Json :=
  Json.obj [("number", Json.num 2),
    ("verses", Json.arr [Json.obj [("hemistich1", Json.str "P"), ("hemistich2", Json.str "Q")]])]

/-- A third sample poem. -/
def corpusGhazal3 : Json :=
  Json.obj [("number", Json.num 3),
    ("verses", Json.arr [Json.obj [("hemistich1", Json.str "R"), ("hemistich2", Json.str "S")]])]

/-- Stage responses whose texts all parse to the empty JSON object. -/
def emptyObjResponses : StageResponses :=
  ⟨.text "\x7b\x7d", .text "\x7b\x7d", .text "\x7b\x7d", .text "\x7b\x7d"⟩

/-- A response oracle under which poem number 2's Analyzer call raises a
transport error and every other call returns an empty JSON object. -/
def corpusOracle : Json → StageResponses := fun g =>
  match g with
  | .obj (("number", .num n) :: _) =>
    if n = 2 then
      { analyzer := .transport "boom", translator := .text "\x7b\x7d",
        stylist := .text "\x7b\x7d", qa := .text "\x7b\x7d" }
    else emptyObjResponses
  | _ => emptyObjResponses

/-- Verse count of a source poem record: the length of its `verses`
list.  Renders the spec's SourcePoem verse-count notion over the record
shape the pipeline reads. -/
def ghazalVerseCount (g : Json) : Nat :=
  match g with
  | .obj kvs =>
    match lookupKey "verses" kvs with
    | some (.arr l) => l.length
    | _ => 0
  | _ => 0

/-- Verse count of a literal-translation stage record: the length of the
`verses` list after unwrapping the nested `literal_translation` field,
the shape the translator stage's schema prescribes and the pipeline
unwraps.  Renders the spec's LiteralTranslation verse-count notion. -/
def literalVerseCount (lit : Json) : Nat :=
  match lit with
  | .obj kvs =>
    match (lookupKey "literal_translation" kvs).getD (Json.obj kvs) with
    | .obj kvs2 =>
      match lookupKey "verses" kvs2 with
      | some (.arr l) => l.length
      | _ => 0
    | _ => 0
  | _ => 0

/-! ### Claim theorems -/

/-- C1 (counterexample): a refined record whose nested
`refined_translation` object has `full_text` present but empty and
verses `[line1 A, line2 B]` derives the empty string, not `"A\nB"`:
`_extract_final_translation` tests key presence, not non-emptiness, so
the claim as stated is false. -/
theorem c1_counterexample :
    extractFinalTranslation (Json.obj [("refined_translation", Json.obj
      [("full_text", Json.str ""),
       ("verses", Json.arr [Json.obj [("line1", Json.str "A"), ("line2", Json.str "B")]])])]) =
      .ok (Json.str "") ∧ ("" : String) ≠ "A\nB" :=
  ⟨rfl, by decide⟩

/-- C1 (amended): for every refined-translation record whose nested
`refined_translation` object has no flowing-text (`full_text`) field at
all and whose verses list is `[line1 A, line2 B]`, the derived final
translation text equals `"A\nB"`. -/
theorem c1_fallback_joins_line_pairs (rfields rtfields : List (String × Json))
    (hrt : lookupKey "refined_translation" rfields = some (Json.obj rtfields))
    (hft : lookupKey "full_text" rtfields = none)
    (hvs : lookupKey "verses" rtfields =
      some (Json.arr [Json.obj [("line1", Json.str "A"), ("line2", Json.str "B")]])) :
    extractFinalTranslation (Json.obj rfields) = .ok (Json.str "A\nB") := by
  have hin : pyIn "refined_translation" (Json.obj rfields) = .ok true := by simp [pyIn, hrt]
  have hsub : pySubscr (Json.obj rfields) "refined_translation" = .ok (Json.obj rtfields) := by
    simp [pySubscr, hrt]
  have hin2 : pyIn "full_text" (Json.obj rtfields) = .ok false := by simp [pyIn, hft]
  have hin3 : pyIn "verses" (Json.obj rtfields) = .ok true := by simp [pyIn, hvs]
  have hsub3 : pySubscr (Json.obj rtfields) "verses" =
      .ok (Json.arr [Json.obj [("line1", Json.str "A"), ("line2", Json.str "B")]]) := by
    simp [pySubscr, hvs]
  simp only [extractFinalTranslation, bind, Except.bind, hin, hsub, hin2, hin3, hsub3]
  rfl

/-- C1 (witness): the amended fallback at a concrete record. -/
theorem c1_fallback_joins_line_pairs_witness :
    extractFinalTranslation (Json.obj [("refined_translation", Json.obj
      [("verses", Json.arr [Json.obj [("line1", Json.str "A"), ("line2", Json.str "B")]])])]) =
      .ok (Json.str "A\nB") :=
  c1_fallback_joins_line_pairs _ _ rfl rfl rfl

/-- C2 (counterexample): a one-verse poem whose translator stage
returns the (parseable) response text of an empty object completes the
pipeline with a LiteralTranslation of verse count 0 while the poem's
verse count is 1 — no alignment check exists, so preservation fails for
this model response. -/
theorem c2_counterexample :
    (translateGhazal "m" "t" (Json.obj sampleFields) emptyObjResponses).map
      (fun r => literalVerseCount r.literal_translation) = .ok 0 ∧
    ghazalVerseCount (Json.obj sampleFields) = 1 ∧ (0 : Nat) ≠ 1 :=
  ⟨rfl, rfl, by decide⟩

/-- C2 (amended): the pipeline performs no verse-count check; the
LiteralTranslation stored in a completed TranslationResult is exactly
the translator-stage invoker's output, unchanged, so its verse count is
whatever the model response contained (equal to the SourcePoem's only
when that response happens to be aligned). -/
theorem c2_literal_is_raw_stage_output (model now : String) (g : Json) (rs : StageResponses)
    (res : TranslationResult) (h : translateGhazal model now g rs = .ok res) :
    callAgent rs.translator = .ok res.literal_translation :=
  (translateGhazal_ok_inv model now g rs res h).2.1

/-- The run used as the C2 witness. -/
def c2run : Except String TranslationResult :=
  translateGhazal "m" "t" (Json.obj sampleFields) emptyObjResponses

/-- C2 (witness): the amended statement at the counterexample run. -/
theorem c2_literal_is_raw_stage_output_witness :
    callAgent emptyObjResponses.translator =
      .ok (c2run.toOption.getD default).literal_translation :=
  c2_literal_is_raw_stage_output "m" "t" (Json.obj sampleFields) emptyObjResponses
    (c2run.toOption.getD default) (by rfl)

/-- C3: for every model response text that does not parse as JSON, the
Stage Invoker does not raise: it returns the degraded record holding
the (fence-stripped) response text and an error marker; and a pipeline
run whose four stages all receive such a text still produces a
TranslationResult, with the degraded record as the stored stage
output. -/
theorem c3_degraded_parse_non_raising (t : String)
    (hp : jsonLoads (preprocessResponse t) = none) :
    callAgent (.text t) = .ok (degradedRecord (preprocessResponse t)) ∧
    ∀ (model now : String) (gfields : List (String × Json)) (vs : List Json),
      lookupKey "verses" gfields = some (Json.arr vs) → (∀ v ∈ vs, VerseWF v) →
      ∃ res, translateGhazal model now (Json.obj gfields) ⟨.text t, .text t, .text t, .text t⟩ =
        .ok res ∧ res.analysis = degradedRecord (preprocessResponse t) := by
  refine ⟨callAgent_degraded t hp, ?_⟩
  intro model now gfields vs hv hwf
  exact ⟨_, translateGhazal_degraded model now gfields vs t t t t hv hwf hp hp hp hp, rfl⟩

/-- C3 (witness): the unparseable response text `"not json"` on the
one-verse sample poem. -/
theorem c3_degraded_parse_non_raising_witness :
    callAgent (.text "not json") = .ok (degradedRecord (preprocessResponse "not json")) ∧
    (∃ res, translateGhazal "m" "t" (Json.obj sampleFields)
        ⟨.text "not json", .text "not json", .text "not json", .text "not json"⟩ = .ok res ∧
      res.analysis = degradedRecord (preprocessResponse "not json")) := by
  have h := c3_degraded_parse_non_raising "not json" (by rfl)
  refine ⟨h.1, h.2 "m" "t" sampleFields [sampleVerse] rfl ?_⟩
  intro v hv
  simp only [List.mem_singleton] at hv
  subst hv
  exact ⟨_, _, _, rfl, rfl, rfl⟩

/-- C4: per-poem fault isolation: for every poem collection of
dict-shaped records, the corpus run returns exactly the completed
results (one per poem whose run succeeded, in order) and one recorded
failure line (poem number plus error) per failed poem; in particular,
for three poems where poem 2's Analyzer call raises a transport error,
the output holds exactly the results for poems 1 and 3 plus the single
failure line for poem 2. -/
theorem c4_per_poem_fault_isolation :
    (∀ (model now : String) (oracle : Json → StageResponses) (gs : List Json),
      (∀ g ∈ gs, ∃ kvs, g = Json.obj kvs) →
      translateCorpus model now gs oracle none =
        .ok (corpusSuccesses model now oracle gs, corpusFailures model now oracle gs)) ∧
    (translateCorpus "m" "t" [Json.obj sampleFields, corpusGhazal2, corpusGhazal3]
        corpusOracle none).map
      (fun pr => (pr.1.map (fun r => r.ghazal_number), pr.2)) =
      .ok ([Json.num 1, Json.num 3], ["Error translating ghazal 2: boom"]) := by
  constructor
  · intro model now oracle gs h
    exact corpusLoop_spec model now oracle gs h
  · rfl

/-- C4 (witness): the general characterisation at the three-poem
scenario. -/
theorem c4_per_poem_fault_isolation_witness :
    translateCorpus "m" "t" [Json.obj sampleFields, corpusGhazal2, corpusGhazal3]
      corpusOracle none =
      .ok (corpusSuccesses "m" "t" corpusOracle
             [Json.obj sampleFields, corpusGhazal2, corpusGhazal3],
           corpusFailures "m" "t" corpusOracle
             [Json.obj sampleFields, corpusGhazal2, corpusGhazal3]) := by
  refine c4_per_poem_fault_isolation.1 "m" "t" corpusOracle _ ?_
  intro g hg
  simp only [List.mem_cons, List.mem_singleton, List.not_mem_nil, or_false] at hg
  rcases hg with rfl | rfl | rfl <;> exact ⟨_, rfl⟩

/-- C6: for every refined-translation record whose nested
`refined_translation` object has `full_text` populated with
`"Come, come!"` and a non-empty verses list, the derived final text is
exactly `"Come, come!"`: flowing text takes precedence over line
pairs. -/
theorem c6_flowing_text_precedence (rfields rtfields : List (String × Json)) (v : Json)
    (vs : List Json)
    (hrt : lookupKey "refined_translation" rfields = some (Json.obj rtfields))
    (hft : lookupKey "full_text" rtfields = some (Json.str "Come, come!"))
    (_hvs : lookupKey "verses" rtfields = some (Json.arr (v :: vs))) :
    extractFinalTranslation (Json.obj rfields) = .ok (Json.str "Come, come!") := by
  have hin : pyIn "refined_translation" (Json.obj rfields) = .ok true := by simp [pyIn, hrt]
  have hsub : pySubscr (Json.obj rfields) "refined_translation" = .ok (Json.obj rtfields) := by
    simp [pySubscr, hrt]
  have hin2 : pyIn "full_text" (Json.obj rtfields) = .ok true := by simp [pyIn, hft]
  have hsub2 : pySubscr (Json.obj rtfields) "full_text" = .ok (Json.str "Come, come!") := by
    simp [pySubscr, hft]
  simp only [extractFinalTranslation, bind, Except.bind, hin, hsub, hin2, hsub2]
  rfl

/-- C6 (witness): precedence at a concrete record with one line pair. -/
theorem c6_flowing_text_precedence_witness :
    extractFinalTranslation (Json.obj [("refined_translation", Json.obj
      [("full_text", Json.str "Come, come!"),
       ("verses", Json.arr [Json.obj [("line1", Json.str "A"), ("line2", Json.str "B")]])])]) =
      .ok (Json.str "Come, come!") :=
  c6_flowing_text_precedence _ _ _ _ rfl rfl rfl

/-- C7: in every completed pipeline run whose QA record is a dict, the
result's confidence equals the QA record's `confidence` field when
present and `"medium"` when absent, and its review flag equals the QA
record's `flags_for_human_review` field when present, and otherwise is
true exactly when the (possibly defaulted) confidence equals
`"low"`. -/
theorem c7_confidence_review_defaults (model now : String) (g : Json) (rs : StageResponses)
    (res : TranslationResult) (qfields : List (String × Json))
    (h : translateGhazal model now g rs = .ok res)
    (hq : res.qa_result = Json.obj qfields) :
    (∀ c, lookupKey "confidence" qfields = some c → res.confidence = c) ∧
    (lookupKey "confidence" qfields = none → res.confidence = Json.str "medium") ∧
    (∀ b, lookupKey "flags_for_human_review" qfields = some b → res.needs_review = b) ∧
    (lookupKey "flags_for_human_review" qfields = none →
      res.needs_review = Json.bool (pyEqStr res.confidence "low")) := by
  obtain ⟨-, -, -, -, hconf, hflag, -, -, -⟩ := translateGhazal_ok_inv model now g rs res h
  rw [hq] at hconf hflag
  have hc2 : (lookupKey "confidence" qfields).getD (Json.str "medium") = res.confidence := by
    simpa [pyGet] using hconf
  have hf2 : (lookupKey "flags_for_human_review" qfields).getD
      (Json.bool (pyEqStr res.confidence "low")) = res.needs_review := by
    simpa [pyGet] using hflag
  refine ⟨?_, ?_, ?_, ?_⟩
  · intro c hcc
    rw [← hc2, hcc]
    rfl
  · intro hcc
    rw [← hc2, hcc]
    rfl
  · intro b hbb
    rw [← hf2, hbb]
    rfl
  · intro hbb
    rw [← hf2, hbb]
    rfl

/-- The run used as the C7 witness (QA reports low confidence and no
explicit review flag). -/
def c7run : Except String TranslationResult :=
  translateGhazal "m" "t" (Json.obj sampleFields)
    ⟨.text "\x7b\x7d", .text "\x7b\x7d", .text "\x7b\x7d",
     .text "\x7b\"confidence\": \"low\"\x7d"⟩

/-- The result of the C7 witness run. -/
def c7res : TranslationResult := c7run.toOption.getD default

/-- C7 (witness): the defaults at a run whose QA record is
`confidence: low` with no explicit flag. -/
theorem c7_confidence_review_defaults_witness :
    (∀ c, lookupKey "confidence" [("confidence", Json.str "low")] = some c →
      c7res.confidence = c) ∧
    (lookupKey "confidence" [("confidence", Json.str "low")] = none →
      c7res.confidence = Json.str "medium") ∧
    (∀ b, lookupKey "flags_for_human_review" [("confidence", Json.str "low")] = some b →
      c7res.needs_review = b) ∧
    (lookupKey "flags_for_human_review" [("confidence", Json.str "low")] = none →
      c7res.needs_review = Json.bool (pyEqStr c7res.confidence "low")) :=
  c7_confidence_review_defaults "m" "t" (Json.obj sampleFields)
    ⟨.text "\x7b\x7d", .text "\x7b\x7d", .text "\x7b\x7d",
     .text "\x7b\"confidence\": \"low\"\x7d"⟩
    c7res [("confidence", Json.str "low")] (by rfl) (by rfl)

/-- C8: for every dict-shaped AnalysisReport whose four note categories
(Quranic allusions, Sufi terms, ambiguities, wordplay) are each absent
or an empty container, and every dict-shaped LiteralTranslation whose
translation notes are absent or an empty container, the derived
scholarly-notes string is exactly empty. -/
theorem c8_empty_scholarly_notes (afields lfields : List (String × Json))
    (h1 : ∀ v, lookupKey "quranic_allusions" afields = some v →
      v = Json.arr [] ∨ v = Json.obj [])
    (h2 : ∀ v, lookupKey "sufi_terminology" afields = some v →
      v = Json.arr [] ∨ v = Json.obj [])
    (h3 : ∀ v, lookupKey "ambiguities" afields = some v → v = Json.arr [] ∨ v = Json.obj [])
    (h4 : ∀ v, lookupKey "wordplay" afields = some v → v = Json.arr [] ∨ v = Json.obj [])
    (h5 : ∀ v, lookupKey "translation_notes" lfields = some v →
      v = Json.arr [] ∨ v = Json.obj []) :
    compileScholarlyNotes (Json.obj afields) (Json.obj lfields) = .ok "" := by
  have t1 : pyTruthy ((lookupKey "quranic_allusions" afields).getD Json.null) = false := by
    cases hl : lookupKey "quranic_allusions" afields with
    | none => rfl
    | some v => rcases h1 v hl with rfl | rfl <;> rfl
  have t2 : pyTruthy ((lookupKey "sufi_terminology" afields).getD Json.null) = false := by
    cases hl : lookupKey "sufi_terminology" afields with
    | none => rfl
    | some v => rcases h2 v hl with rfl | rfl <;> rfl
  have t3 : pyTruthy ((lookupKey "ambiguities" afields).getD Json.null) = false := by
    cases hl : lookupKey "ambiguities" afields with
    | none => rfl
    | some v => rcases h3 v hl with rfl | rfl <;> rfl
  have t4 : pyTruthy ((lookupKey "wordplay" afields).getD Json.null) = false := by
    cases hl : lookupKey "wordplay" afields with
    | none => rfl
    | some v => rcases h4 v hl with rfl | rfl <;> rfl
  have t5 : pyTruthy ((lookupKey "translation_notes" lfields).getD Json.null) = false := by
    cases hl : lookupKey "translation_notes" lfields with
    | none => rfl
    | some v => rcases h5 v hl with rfl | rfl <;> rfl
  simp [compileScholarlyNotes, pyGet, bind, Except.bind, pure, Except.pure, t1, t2, t3, t4, t5]

/-- C8 (witness): empty analysis and literal records. -/
theorem c8_empty_scholarly_notes_witness :
    compileScholarlyNotes (Json.obj []) (Json.obj []) = .ok "" := by
  refine c8_empty_scholarly_notes [] [] ?_ ?_ ?_ ?_ ?_ <;>
    exact fun v h => absurd h (by simp [lookupKey])

/-- C9: for every poem record whose verses field is present but is the
empty list, a full four-stage run (here with each stage response
unparseable, the pipeline's own degraded baseline) raises no error from
the core — every prompt builder and derivation is total on the empty
verse list — and produces a TranslationResult for the poem. -/
theorem c9_empty_verse_list_safe (model now : String) (gfields : List (String × Json))
    (hv : lookupKey "verses" gfields = some (Json.arr []))
    (t1 t2 t3 t4 : String)
    (h1 : jsonLoads (preprocessResponse t1) = none)
    (h2 : jsonLoads (preprocessResponse t2) = none)
    (h3 : jsonLoads (preprocessResponse t3) = none)
    (h4 : jsonLoads (preprocessResponse t4) = none) :
    ∃ res, translateGhazal model now (Json.obj gfields) ⟨.text t1, .text t2, .text t3, .text t4⟩ =
      .ok res ∧ res.persian_text = Json.arr [] :=
  ⟨_, translateGhazal_degraded model now gfields [] t1 t2 t3 t4 hv
    (fun v hv2 => absurd hv2 (List.not_mem_nil v)) h1 h2 h3 h4, rfl⟩

/-- C9 (witness): a concrete empty-verse poem with unparseable stage
responses. -/
theorem c9_empty_verse_list_safe_witness :
    ∃ res, translateGhazal "m" "t"
        (Json.obj [("number", Json.num 7), ("verses", Json.arr [])])
        ⟨.text "oops", .text "oops", .text "oops", .text "oops"⟩ = .ok res ∧
      res.persian_text = Json.arr [] :=
  c9_empty_verse_list_safe "m" "t" [("number", Json.num 7), ("verses", Json.arr [])] rfl
    "oops" "oops" "oops" "oops" rfl rfl rfl rfl

/-- C10: a limit of 0 is falsy in `ghazals[:limit] if limit else
ghazals`, so the Corpus Runner processes every poem; a positive limit n
processes exactly the first n poems (at most n). -/
theorem c10_limit_edge_cases (model now : String) (gs : List Json)
    (oracle : Json → StageResponses) :
    translateCorpus model now gs oracle (some 0) = translateCorpus model now gs oracle none ∧
    ∀ n : Int, 0 < n → translateCorpus model now gs oracle (some n) =
      translateCorpus model now (gs.take n.toNat) oracle none := by
  refine ⟨rfl, ?_⟩
  intro n hn
  have hne : ¬(n = 0) := by omega
  simp [translateCorpus, applyLimit, pySliceTo, hne, hn.le]

/-- C10 (witness): limit 1 on a two-poem collection. -/
theorem c10_limit_edge_cases_witness :
    translateCorpus "m" "t" [Json.obj sampleFields, corpusGhazal2] corpusOracle (some 1) =
      translateCorpus "m" "t" ([Json.obj sampleFields, corpusGhazal2].take (Int.toNat 1))
        corpusOracle none :=
  (c10_limit_edge_cases "m" "t" [Json.obj sampleFields, corpusGhazal2] corpusOracle).2 1
    (by decide)

end Divan
